import Mathlib

/-!
Shallow embedding of the restore/backup coordination core of
percona-backup-mongodb: `pbm/backup/oplog.go` (oplog slicing) and
`pbm/restore/restore.go` (restore pipeline, status reconciliation,
user/role splice), together with the few `pbm`-package constants and
types those files use.

Go errors are modelled as `Option GoErr` (`none` = nil); `errors.Wrap`
of a nil error is nil, and `errors.Cause` of a wrapped error is the
innermost message, exactly as in github.com/pkg/errors.
-/

namespace PBM

/-- Go error value as used through github.com/pkg/errors: an innermost
cause message plus the stack of wrapping messages. -/
structure GoErr where
  cause : String
  frames : List String
deriving DecidableEq, Repr

/-- `errors.New` / `errors.Errorf`. -/
def errE (s : String) : GoErr := ⟨s, []⟩

/-- `errors.Wrap` on a non-nil error: prepends a message, keeps the cause. -/
def wrapE (e : GoErr) (m : String) : GoErr := ⟨e.cause, m :: e.frames⟩

/-- `errors.Wrap` on a possibly-nil error: `errors.Wrap(nil, msg) == nil`. -/
def wrap : Option GoErr → String → Option GoErr
  | none, _ => none
  | some e, m => some (wrapE e m)

/-- MongoDB logical timestamp (`primitive.Timestamp`): seconds `T` and
increment `I`. -/
structure Timestamp where
  T : Nat
  I : Nat
deriving DecidableEq, Repr

/-- `primitive.Timestamp.After`: lexicographic strict order on `(T, I)`,
as in the mongo driver. -/
def Timestamp.After (tp tp2 : Timestamp) : Bool :=
  tp.T > tp2.T || (tp.T == tp2.T && tp.I > tp2.I)

/-- `primitive.CompareTimestamp(tp, tp2)`: 0 if equal, 1 if `tp` after
`tp2`, -1 otherwise — the comparison `Oplog.WriteTo` uses against its
`end` bound. -/
def CompareTimestamp (tp tp2 : Timestamp) : Int :=
  if tp = tp2 then 0
  else if tp.After tp2 then 1
  else -1

/-- Modelled from the spec: the `pbm` package's operation status values
(`pbm.Status`); the constants are declared outside the provided sources.
States: Starting, Running, DumpDone, Done, Cancelled, Error. -/
inductive Status where
  | starting
  | running
  | dumpDone
  | done
  | cancelled
  | error
deriving DecidableEq, Repr

/-- Modelled from the spec: string form of a status, used only inside
error messages. -/
def statusStr : Status → String
  | .starting => "starting"
  | .running => "running"
  | .dumpDone => "dumpDone"
  | .done => "done"
  | .cancelled => "cancelled"
  | .error => "error"

/-- Modelled from the spec: `pbm.StaleFrameSec`, the grace period after
which a non-refreshed heartbeat is considered dead (default 30 s). -/
def StaleFrameSec : Nat := 30

/-- Modelled from the spec: `pbm.WaitActionStart`, the timeout applied
to the Starting→Running convergence hop (default 30 s), in seconds. -/
def WaitActionStart : Nat := 30

/-- Modelled from the spec: `pbm.OperationNoop`, the oplog `op` value of
a noop entry, `"n"`. -/
def OperationNoop : String := "n"

/-! ## Oplog slicing (`pbm/backup/oplog.go`) -/

/-- The tailing window of an `Oplog` (`start`/`end` fields of the Go
struct; `end` is a Lean keyword, hence `end_`). -/
structure Oplog where
  start : Timestamp
  end_ : Timestamp
deriving DecidableEq, Repr

/-- `NewOplog`: both window bounds are zero-valued. -/
def NewOplog : Oplog := ⟨⟨0, 0⟩, ⟨0, 0⟩⟩

/-- `Oplog.SetTailingSpan`: sets the oplog tailing window. -/
def Oplog.SetTailingSpan (_ot : Oplog) (start end_ : Timestamp) : Oplog :=
  ⟨start, end_⟩

/-- One oplog document yielded by the cursor: its `ts` field, its `op`
field, and its raw bytes (`cur.Current`). -/
structure OplogEntry where
  ts : Timestamp
  op : String
  raw : List Nat
deriving DecidableEq, Repr

/-- The error message of the unset-span guard in `Oplog.WriteTo`. -/
def spanErrMsg (ot : Oplog) : String :=
  "oplog TailingSpan should be set, have start: \x7b" ++ toString ot.start.T ++ " " ++
    toString ot.start.I ++ "\x7d, end: \x7b" ++ toString ot.end_.T ++ " " ++
    toString ot.end_.I ++ "\x7d"

/-- `bson.RawValue.String()` applied to a BSON string value, as in
mongo driver v1.1.3 (the vendored version): the extended-JSON rendering
of the value, i.e. the string surrounded by quotation marks — not the
bare value (`StringValue()` would give that). -/
def rawValueString (s : String) : String := "\"" ++ s ++ "\""

/-- The cursor loop of `Oplog.WriteTo`: walk the yielded documents in
order; return as soon as a document with `ts > end` is observed (that
document is not written, the error is nil); then comes the noop check,
which compares `cur.Current.Lookup("op").String()` — the quoted
`RawValue.String()` rendering — against `OperationNoop`; otherwise
append the raw bytes to the writer and add their length to `written`.
When the cursor is exhausted, return `cur.Err()`. The writer is the
pure byte accumulator `out`. -/
def writeLoop (end_ : Timestamp) (curErr : Option GoErr) :
    List OplogEntry → Int → List Nat → Int × Option GoErr × List Nat
  | [], written, out => (written, curErr, out)
  | e :: rest, written, out =>
    if CompareTimestamp end_ e.ts = -1 then (written, none, out)
    else if rawValueString e.op = OperationNoop then writeLoop end_ curErr rest written out
    else writeLoop end_ curErr rest (written + Int.ofNat e.raw.length) (out ++ e.raw)

/-- `Oplog.WriteTo`: guard that the tailing span is set, then run the
cursor loop. `entries` are the documents the cursor yields before it is
exhausted; `curErr` is the cursor's terminal error (`cur.Err()`).
Returns `(written, error, bytes written to w)`. -/
def Oplog.WriteTo (ot : Oplog) (entries : List OplogEntry) (curErr : Option GoErr) :
    Int × Option GoErr × List Nat :=
  if ot.start.T = 0 ∨ ot.end_.T = 0 then
    (0, some (errE (spanErrMsg ot)), [])
  else
    writeLoop ot.end_ curErr entries 0 []

/-! ## Restore data model (`pbm/restore/restore.go` and the `pbm` types it uses) -/

/-- A cluster shard as listed by the coordinator (`pbm.Shard`): its
replica-set id and host string. -/
structure Shard where
  id : String
  host : String
deriving DecidableEq, Repr

/-- A replica-set entry of the restore metadata (`pbm.RestoreReplset`),
restricted to the fields `converged` inspects. -/
structure RestoreReplset where
  name : String
  status : Status
  error : String
deriving DecidableEq, Repr

/-- Restore metadata (`pbm.RestoreMeta`), restricted to the fields the
polling code inspects: cluster status, error, heartbeat and the
replica-set entries. -/
structure RestoreMeta where
  status : Status
  error : String
  hb : Timestamp
  replsets : List RestoreReplset
deriving DecidableEq, Repr

/-- A replica-set entry of the backup metadata (`pbm.BackupReplset`),
restricted to the fields `Restore.Run` uses. -/
structure BackupReplset where
  Name : String
  DumpName : String
  OplogName : String
deriving DecidableEq, Repr

/-- Backup metadata (`pbm.BackupMeta`), restricted to the fields
`Restore.Run` uses. -/
structure BackupMeta where
  Status : Status
  Error : String
  Replsets : List BackupReplset
deriving DecidableEq, Repr

/-- Outcome of `pbm.GetLockData` for one shard: the lock document's
heartbeat, `mongo.ErrNoDocuments` (no lock in the collection), or some
other driver error. -/
inductive LockRes where
  | ok (heartbeat : Timestamp)
  | noDocs
  | fail (e : GoErr)
deriving DecidableEq, Repr

/-- External-call outcomes `converged` depends on: the restore-meta
read, the cluster-time read, the per-shard lock read, and the error (if
any) of the final `ChangeRestoreState` write. -/
structure ConvergedEnv where
  getMeta : Except GoErr RestoreMeta
  clusterTime : Except GoErr Timestamp
  getLock : String → LockRes
  changeStateErr : Option GoErr

/-- The nested shard loop of `Restore.converged`, flattened over the
(outer shard, inner replset-entry) pairs in iteration order, carrying
`shardsToFinish`. For a matching pair: when the target status is not
Done AND the lock read did not report no-documents, a lock-read failure
or a stale heartbeat (`hb.T + StaleFrameSec < clusterTime.T`) aborts
with an error; then the entry's status is matched — the target status
decrements the counter, `StatusError` aborts with that shard's error. -/
def convergedStep (status : Status) (ct : Timestamp) (getLock : String → LockRes) :
    List (Shard × RestoreReplset) → Int → Except GoErr Int
  | [], n => .ok n
  | (sh, shard) :: rest, n =>
    if shard.name = sh.id then
      let lockCheck : Option GoErr :=
        match getLock shard.name with
        | .fail e =>
          if status ≠ Status.done then
            some (wrapE e ("unable to read lock for shard " ++ shard.name))
          else none
        | .ok hb =>
          if status ≠ Status.done ∧ hb.T + StaleFrameSec < ct.T then
            some (errE ("lost shard " ++ shard.name ++ ", last beat ts: " ++ toString hb.T))
          else none
        | .noDocs => none
      match lockCheck with
      | some e => .error e
      | none =>
        if shard.status = status then convergedStep status ct getLock rest (n - 1)
        else if shard.status = Status.error then
          .error (errE ("restore on the shard " ++ shard.name ++ " failed with: " ++ shard.error))
        else convergedStep status ct getLock rest n
    else convergedStep status ct getLock rest n

/-- `Restore.converged`: read the restore meta and the cluster time, run
the shard loop, and when every shard has reached the target status write
the cluster-level status and report convergence. Returns `(ok, error)`
as the Go function does. -/
def converged (env : ConvergedEnv) (shards : List Shard) (status : Status) :
    Bool × Option GoErr :=
  match env.getMeta with
  | .error e => (false, some (wrapE e "get backup metadata"))
  | .ok bmeta =>
    match env.clusterTime with
    | .error e => (false, some (wrapE e "read cluster time"))
    | .ok ct =>
      match convergedStep status ct env.getLock
          (shards.flatMap fun sh => bmeta.replsets.map fun r => (sh, r))
          (Int.ofNat shards.length) with
      | .error e => (false, some e)
      | .ok n =>
        if n = 0 then
          match env.changeStateErr with
          | some e => (false, some (wrapE e ("update backup meta with " ++ statusStr status)))
          | none => (true, none)
        else (false, none)

/-! ## Status polling (`Restore.waitForStatus`) -/

/-- External-call outcomes of one poll tick of `waitForStatus`. -/
structure WaitEnv where
  getMeta : Except GoErr RestoreMeta
  clusterTime : Except GoErr Timestamp
deriving Repr

/-- One ticker iteration of `Restore.waitForStatus`: read the restore
meta and the cluster time; if the meta's heartbeat is stale
(`hb.T + StaleFrameSec < clusterTime.T`) return the "restore stuck"
error; otherwise match the status — the awaited status returns nil, and
`StatusError` returns `errors.Wrap(err, "restore failed")` where `err`
is the (nil) error left from the cluster-time read, i.e. nil. `none`
means the loop keeps polling. -/
def waitForStatusStep (env : WaitEnv) (status : Status) : Option (Option GoErr) :=
  match env.getMeta with
  | .error e => some (some (wrapE e "get restore metadata"))
  | .ok meta =>
    match env.clusterTime with
    | .error e => some (some (wrapE e "read cluster time"))
    | .ok ct =>
      if meta.hb.T + StaleFrameSec < ct.T then
        some (some (errE ("restore stuck, last beat ts: " ++ toString meta.hb.T)))
      else if meta.status = status then some none
      else if meta.status = Status.error then some (wrap none "restore failed")
      else none

/-! ## User/role splice (`Restore.swapUsers`) -/

/-- One role of the current user (`pbm.AuthInfo.UserRoles` element):
role name and database. -/
structure AuthUserRoles where
  DB : String
  Role : String
deriving DecidableEq, Repr

/-- One user identity (`pbm.AuthInfo.Users` element). -/
structure AuthUser where
  DB : String
  User : String
deriving DecidableEq, Repr

/-- Modelled from the spec: `pbm.AuthInfo`, the connection-status
authInfo document — authenticated users and their roles (the type is
declared outside the provided sources; the fields are those
`swapUsers` reads). -/
structure AuthInfo where
  Users : List AuthUser
  UserRoles : List AuthUserRoles
deriving DecidableEq, Repr

/-- A document of a system/temporary collection: its `_id` and an opaque
payload. -/
structure Doc where
  id : String
  payload : String
deriving DecidableEq, Repr

/-- The four collections `swapUsers` touches: `admin.system.roles`,
`admin.system.users`, and the temporary `PBM-DB.pbmRRoles` /
`PBM-DB.pbmRUsers` collections. -/
structure UsersState where
  adminRoles : List Doc
  adminUsers : List Doc
  tmpRoles : List Doc
  tmpUsers : List Doc
deriving DecidableEq, Repr

/-- The `_id` strings of the current user's roles (`eroles` in
`swapUsers`): `DB ++ "." ++ Role` for each role. -/
def eroles (exclude : AuthInfo) : List String :=
  exclude.UserRoles.map fun r => r.DB ++ "." ++ r.Role

/-- The `_id` the user-side splice preserves: `DB ++ "." ++ User` of the
first authenticated user, or `""` when the session reports no user. -/
def preservedUser (exclude : AuthInfo) : String :=
  match exclude.Users with
  | [] => ""
  | u :: _ => u.DB ++ "." ++ u.User

/-- `Restore.swapUsers` on its success path. Roles: open a cursor over
`tmpRoles` filtered `_id $nin eroles`, delete from `admin.system.roles`
every document with `_id $nin eroles`, then insert the cursor's
documents in order. Users: the same with the single preserved `_id`
(`$ne`) instead of the role set. Finally both temporary collections are
dropped. -/
def swapUsers (st : UsersState) (exclude : AuthInfo) : UsersState :=
  let er := eroles exclude
  let rolesToCopy := st.tmpRoles.filter fun d => decide (d.id ∉ er)
  let rolesKept := st.adminRoles.filter fun d => decide (d.id ∈ er)
  let user := preservedUser exclude
  let usersToCopy := st.tmpUsers.filter fun d => decide (d.id ≠ user)
  let usersKept := st.adminUsers.filter fun d => decide (d.id = user)
  { adminRoles := rolesKept ++ rolesToCopy
    adminUsers := usersKept ++ usersToCopy
    tmpRoles := []
    tmpUsers := [] }

/-! ## Convergence loops (`convergeCluster`, `convergeClusterWithTimeout`) -/

/-- `errConvergeTimeOut`. -/
def errConvergeTimeOut : GoErr := errE "reached converge timeout"

/-- One `select` event of a convergence loop: a 1 Hz ticker tick
delivering the result of one `converged` call, the timeout ticker
firing, or the context being cancelled. -/
inductive Tick where
  | poll (r : Bool × Option GoErr)
  | timeoutFire
  | ctxDone
deriving DecidableEq, Repr

/-- `Restore.convergeCluster`: poll `converged` until it errs (propagate)
or reports convergence (return nil); context cancellation returns nil.
There is no timeout channel, so a `timeoutFire` event can never be
selected. `none` means the loop is still waiting after the given
events. -/
def convergeCluster : List Tick → Option (Option GoErr)
  | [] => none
  | .poll (ok, e) :: rest =>
    match e with
    | some e => some (some e)
    | none => if ok then some none else convergeCluster rest
  | .timeoutFire :: rest => convergeCluster rest
  | .ctxDone :: _ => some none

/-- `Restore.convergeClusterWithTimeout`: as `convergeCluster`, but the
timeout ticker firing returns `errConvergeTimeOut`. -/
def convergeClusterWithTimeout : List Tick → Option (Option GoErr)
  | [] => none
  | .poll (ok, e) :: rest =>
    match e with
    | some e => some (some e)
    | none => if ok then some none else convergeClusterWithTimeout rest
  | .timeoutFire :: _ => some (some errConvergeTimeOut)
  | .ctxDone :: _ => some none

/-- `Restore.reconcileStatus`: with a non-nil timeout run the bounded
loop (wrapping "convergeClusterWithTimeout"), otherwise the unbounded
one (wrapping "convergeCluster"). -/
def reconcileStatus (timeout : Option Nat) (evs : List Tick) : Option (Option GoErr) :=
  match timeout with
  | some _ => (convergeClusterWithTimeout evs).map (fun r => wrap r "convergeClusterWithTimeout")
  | none => (convergeCluster evs).map (fun r => wrap r "convergeCluster")

/-! ## The restore worker (`Restore.Run`) -/

/-- Modelled from the spec: `pbm.NoReplset`, the placeholder replica-set
name used when the node reports no set name (constant declared outside
the provided sources; its exact value is immaterial here). -/
def NoReplset : String := "standalone"

/-- The isMaster data `Restore.Run` uses: the replica-set name, and the
`IsLeader()` predicate (modelled from the spec: leader = primary of the
config-server replica set, or of the sole replica set). -/
structure IsMaster where
  SetName : String
  isLeader : Bool
deriving DecidableEq, Repr

/-- Outcome of `pbm.GetBackupMeta`: the document, `mongo.ErrNoDocuments`,
or another error. -/
inductive MetaRes where
  | found (m : BackupMeta)
  | noDocs
  | fail (e : GoErr)
deriving Repr

/-- A side effect of `Restore.Run` on the cluster: a write of
restore metadata, the start of the heartbeat goroutine, a convergence
round (with the target status and the timeout argument, in seconds,
passed to `reconcileStatus`), the mongorestore run, a replica-set state
transition, the oplog replay, the user/role splice, or the deferred
`MarkFailed` write. -/
inductive Effect where
  | setRestoreMeta
  | startHeartbeat
  | addRSMeta
  | reconcile (s : Status) (timeout : Option Nat)
  | mongorestore
  | changeRSState (s : Status)
  | oplogApply
  | swapUsers
  | markFailed
deriving DecidableEq, Repr

/-- Result of `Restore.Run`: the returned error and the ordered trace of
cluster side effects (attempted writes included). -/
structure RunRes where
  err : Option GoErr
  effects : List Effect
deriving Repr

/-- Outcomes of every external call `Restore.Run` makes, in program
order. Each `Option GoErr` is the error of one fallible call (`none` =
success); reads that produce data are `Except`. -/
structure RunEnv where
  getStorage : Option GoErr
  getBackupMeta : MetaRes
  metaFromStore : Except GoErr BackupMeta
  getIsMaster : Except GoErr IsMaster
  setRestoreMeta : Option GoErr
  waitStarting : Option GoErr
  addRSMeta : Option GoErr
  reconcileRunning : Option GoErr
  waitRunning : Option GoErr
  dumpReader : Option GoErr
  dumpDecompress : Option GoErr
  mongoVersion : Except GoErr String
  newSession : Option GoErr
  mongorestoreRes : Option GoErr
  changeRSDumpDone : Option GoErr
  reconcileDumpDone : Option GoErr
  waitDumpDone : Option GoErr
  oplogReader : Option GoErr
  oplogDecompress : Option GoErr
  oplogApplyRes : Option GoErr
  currentUser : Except GoErr AuthInfo
  restoreUsersRes : Option GoErr
  changeRSDone : Option GoErr
  reconcileDone : Option GoErr

/-- Backup-meta resolution at the top of `Restore.Run`: `GetBackupMeta`
from PBM-DB, falling back to `getMetaFromStore` on
`mongo.ErrNoDocuments`; any remaining error is wrapped
"get backup metadata". -/
def resolveBackupMeta (env : RunEnv) : Except GoErr BackupMeta :=
  match env.getBackupMeta with
  | .found m => .ok m
  | .fail e => .error (wrapE e "get backup metadata")
  | .noDocs =>
    match env.metaFromStore with
    | .ok m => .ok m
    | .error e => .error (wrapE e "get backup metadata")

/-- An error return taken after the deferred `MarkFailed` closure is
registered: the error is returned and `MarkFailed` runs. -/
def failMF (e : GoErr) (tr : List Effect) : RunRes :=
  ⟨some e, tr ++ [Effect.markFailed]⟩

/-- The tail of `Restore.Run` from the point where the deferred
`MarkFailed` closure is registered (just before `AddRestoreRSMeta`):
add the shard's restore meta; on the leader, reconcile toward Running
with the `WaitActionStart` timeout (a converge-timeout cause gets the
"couldn't get response from all shards" wrap); wait for Running; open
and decompress the dump; read the server version (an empty version
string returns `errors.Wrap` of a nil error, i.e. nil); run
mongorestore; transition to DumpDone; on the leader reconcile toward
DumpDone with no timeout; wait for DumpDone; open and decompress the
oplog (the source formats both messages with the dump object's name);
replay the oplog; read the current user and splice users/roles;
transition to Done; on the leader reconcile toward Done with no
timeout. -/
def runAfterDefer (env : RunEnv) (im : IsMaster) (rsBackup : BackupReplset)
    (tr0 : List Effect) : RunRes :=
  let tr1 := tr0 ++ [Effect.addRSMeta]
  match env.addRSMeta with
  | some e => failMF (wrapE e "add shard's metadata") tr1
  | none =>
  let p1 : Option GoErr × List Effect :=
    if im.isLeader then
      (env.reconcileRunning, tr1 ++ [Effect.reconcile Status.running (some WaitActionStart)])
    else (none, tr1)
  match p1 with
  | (some e, tr2) =>
    if e.cause = errConvergeTimeOut.cause then
      failMF (wrapE e "couldn't get response from all shards") tr2
    else failMF (wrapE e "check cluster for restore started") tr2
  | (none, tr2) =>
  match env.waitRunning with
  | some e => failMF (wrapE e "waiting for start") tr2
  | none =>
  match env.dumpReader with
  | some e => failMF (wrapE e ("get object " ++ rsBackup.DumpName ++ " for the storage")) tr2
  | none =>
  match env.dumpDecompress with
  | some e => failMF (wrapE e ("decompress object " ++ rsBackup.DumpName)) tr2
  | none =>
  match env.mongoVersion with
  | .error e => failMF (wrapE e "define mongo version") tr2
  | .ok ver =>
  if ver.length < 1 then ⟨wrap none "define mongo version", tr2⟩
  else
  match env.newSession with
  | some e => failMF (wrapE e "create session for the dump restore") tr2
  | none =>
  let tr3 := tr2 ++ [Effect.mongorestore]
  match env.mongorestoreRes with
  | some e => failMF (wrapE e "restore mongo dump") tr3
  | none =>
  let tr4 := tr3 ++ [Effect.changeRSState Status.dumpDone]
  match env.changeRSDumpDone with
  | some e => failMF (wrapE e "set shard's StatusDumpDone") tr4
  | none =>
  let p2 : Option GoErr × List Effect :=
    if im.isLeader then
      (env.reconcileDumpDone, tr4 ++ [Effect.reconcile Status.dumpDone none])
    else (none, tr4)
  match p2 with
  | (some e, tr5) => failMF (wrapE e "check cluster for restore dump done") tr5
  | (none, tr5) =>
  match env.waitDumpDone with
  | some e => failMF (wrapE e "waiting for start") tr5
  | none =>
  match env.oplogReader with
  | some e => failMF (wrapE e ("get object " ++ rsBackup.DumpName ++ " for the storage")) tr5
  | none =>
  match env.oplogDecompress with
  | some e => failMF (wrapE e ("decompress object " ++ rsBackup.DumpName)) tr5
  | none =>
  let tr6 := tr5 ++ [Effect.oplogApply]
  match env.oplogApplyRes with
  | some e => failMF (wrapE e "oplog apply") tr6
  | none =>
  match env.currentUser with
  | .error e => failMF (wrapE e "get current user") tr6
  | .ok _ =>
  let tr7 := tr6 ++ [Effect.swapUsers]
  match env.restoreUsersRes with
  | some e => failMF (wrapE e "restore users 'n' roles") tr7
  | none =>
  let tr8 := tr7 ++ [Effect.changeRSState Status.done]
  match env.changeRSDone with
  | some e => failMF (wrapE e "set shard's StatusDone") tr8
  | none =>
  let p3 : Option GoErr × List Effect :=
    if im.isLeader then
      (env.reconcileDone, tr8 ++ [Effect.reconcile Status.done none])
    else (none, tr8)
  match p3 with
  | (some e, tr9) => failMF (wrapE e "check cluster for the restore done") tr9
  | (none, tr9) => ⟨none, tr9⟩

/-- The replica-set name `Restore.Run` works with: the isMaster set
name, or the no-replset placeholder when it is empty. -/
def runRsName (im : IsMaster) : String :=
  if im.SetName = "" then NoReplset else im.SetName

/-- The leader-only preparation block of `Restore.Run`: write the
restore meta (an error is wrapped "write backup meta to db") and start
the heartbeat goroutine. Returns the error and the effects of the
block. -/
def leaderStart (env : RunEnv) (im : IsMaster) : Option GoErr × List Effect :=
  if im.isLeader then
    match env.setRestoreMeta with
    | some e => (some (wrapE e "write backup meta to db"), [Effect.setRestoreMeta])
    | none => (none, [Effect.setRestoreMeta, Effect.startHeartbeat])
  else (none, [])

/-- The replica-set lookup of `Restore.Run`: the backup-meta entry
matching the local replica-set name; the Go loop keeps the last match
and does not break. -/
def findRS (bcp : BackupMeta) (im : IsMaster) : Option BackupReplset :=
  (bcp.Replsets.filter fun v => v.Name == runRsName im).getLast?

/-- `Restore.Run`: get the storage, resolve the backup meta, refuse a
backup whose status is not Done, read isMaster, locate the matching
replica-set backup entry (last match wins, as the Go loop does not
break), then — on the leader — write the restore meta and start the
heartbeat; wait for Starting; from there the deferred `MarkFailed` is
registered and `runAfterDefer` continues the pipeline. -/
def Run (env : RunEnv) : RunRes :=
  match env.getStorage with
  | some e => ⟨some (wrapE e "get backup storage"), []⟩
  | none =>
  match resolveBackupMeta env with
  | .error e => ⟨some e, []⟩
  | .ok bcp =>
  if bcp.Status ≠ Status.done then
    ⟨some (errE ("backup wasn't successful: status: " ++ statusStr bcp.Status ++
      ", error: " ++ bcp.Error)), []⟩
  else
  match env.getIsMaster with
  | .error e => ⟨some (wrapE e "get isMaster data"), []⟩
  | .ok im =>
  match findRS bcp im with
  | none => ⟨some (errE ("metadata for replset/shard " ++ runRsName im ++ " is not found")), []⟩
  | some rsBackup =>
  match leaderStart env im with
  | (some e, tr) => ⟨some e, tr⟩
  | (none, tr) =>
  match env.waitStarting with
  | some e => ⟨some (wrapE e "waiting for start"), tr⟩
  | none => runAfterDefer env im rsBackup tr

/-! ## Spec-side description of the oplog slice (for the refinement
claims about `Oplog.WriteTo`) -/

/-- The bytes the oplog slice actually holds: the raw bytes, in cursor
order, of **every** entry strictly before the first one observed past
the `end` bound (that terminating entry is not written, noop or not).
Noops are not filtered out: the skip comparison checks the quoted
`RawValue.String()` rendering against `"n"` and never matches. -/
def specOplogBytes (end_ : Timestamp) (entries : List OplogEntry) : List Nat :=
  (entries.takeWhile fun e => !decide (CompareTimestamp end_ e.ts = -1)).flatMap
    OplogEntry.raw

/-- The noop-skip branch of the cursor loop is dead code: the quoted
rendering `rawValueString s` has at least two characters and can never
equal the one-character `OperationNoop`. -/
theorem rawValueString_ne_noop (s : String) : rawValueString s ≠ OperationNoop := by
  intro h
  have hlen : (rawValueString s).length = 1 := by rw [h]; rfl
  have hq : ("\"" : String).length = 1 := rfl
  rw [rawValueString, String.length_append, String.length_append, hq] at hlen
  omega

theorem writeLoop_out (end_ : Timestamp) (curErr : Option GoErr) :
    ∀ (entries : List OplogEntry) (w : Int) (out : List Nat),
      (writeLoop end_ curErr entries w out).2.2 = out ++ specOplogBytes end_ entries
  | [], w, out => by simp [writeLoop, specOplogBytes]
  | e :: rest, w, out => by
    by_cases h : CompareTimestamp end_ e.ts = -1
    · simp [writeLoop, specOplogBytes, h]
    · have hn := rawValueString_ne_noop e.op
      have ih := writeLoop_out end_ curErr rest (w + Int.ofNat e.raw.length) (out ++ e.raw)
      simp [writeLoop, specOplogBytes, h, hn] at ih ⊢
      simp [ih]

theorem writeLoop_written (end_ : Timestamp) (curErr : Option GoErr) :
    ∀ (entries : List OplogEntry) (w : Int) (out : List Nat),
      (writeLoop end_ curErr entries w out).1 =
        w + Int.ofNat (specOplogBytes end_ entries).length
  | [], w, out => by simp [writeLoop, specOplogBytes]
  | e :: rest, w, out => by
    by_cases h : CompareTimestamp end_ e.ts = -1
    · simp [writeLoop, specOplogBytes, h]
    · have hn := rawValueString_ne_noop e.op
      have ih := writeLoop_written end_ curErr rest (w + Int.ofNat e.raw.length) (out ++ e.raw)
      simp [writeLoop, specOplogBytes, h, hn] at ih ⊢
      simp [ih]
      ring

theorem writeLoop_err_exhausted (end_ : Timestamp) (curErr : Option GoErr) :
    ∀ (entries : List OplogEntry) (w : Int) (out : List Nat),
      (∀ e ∈ entries, CompareTimestamp end_ e.ts ≠ -1) →
      (writeLoop end_ curErr entries w out).2.1 = curErr
  | [], w, out, _ => by simp [writeLoop]
  | e :: rest, w, out, hall => by
    have h := hall e (by simp)
    have hrest : ∀ e ∈ rest, CompareTimestamp end_ e.ts ≠ -1 := fun x hx => hall x (by simp [hx])
    have hn := rawValueString_ne_noop e.op
    simpa [writeLoop, h, hn] using
      writeLoop_err_exhausted end_ curErr rest (w + Int.ofNat e.raw.length) (out ++ e.raw) hrest

/-- C8: with an unset tailing span (`start.T = 0` or `end.T = 0`),
`Oplog.WriteTo` returns 0 bytes written and a non-nil error, and writes
nothing to the output writer — `SetTailingSpan` with non-zero
timestamps is a hard precondition of the oplog capture. -/
theorem WriteTo_requires_span (ot : Oplog) (entries : List OplogEntry) (curErr : Option GoErr)
    (h : ot.start.T = 0 ∨ ot.end_.T = 0) :
    Oplog.WriteTo ot entries curErr = (0, some (errE (spanErrMsg ot)), []) := by
  unfold Oplog.WriteTo
  rw [if_pos h]

/-- Witness for C8: a freshly created `Oplog` (span never set) refuses
to write even a non-empty cursor batch. -/
theorem WriteTo_requires_span_witness :
    Oplog.WriteTo NewOplog [⟨⟨2, 1⟩, "i", [7, 8]⟩] none =
      (0, some (errE (spanErrMsg NewOplog)), []) :=
  WriteTo_requires_span NewOplog [⟨⟨2, 1⟩, "i", [7, 8]⟩] none (Or.inl rfl)

/-- Counterexample to C3 as stated: an in-window noop entry IS written.
The skip check compares `Lookup("op").String()` — the quoted rendering
`"n"` with its quotation marks — against the bare `"n"` and never
fires, so the noop's raw bytes appear in the output and in the count:
the batch [insert ⟨2,1⟩ [7,8], noop ⟨3,0⟩ [9]] yields [7, 8, 9] and 3,
not the [7, 8] and 2 the claim predicts. -/
theorem WriteTo_writes_inwindow_noop :
    (Oplog.WriteTo ⟨⟨1, 0⟩, ⟨5, 0⟩⟩
        [⟨⟨2, 1⟩, "i", [7, 8]⟩, ⟨⟨3, 0⟩, "n", [9]⟩] none).2.2 = [7, 8, 9] ∧
    (Oplog.WriteTo ⟨⟨1, 0⟩, ⟨5, 0⟩⟩
        [⟨⟨2, 1⟩, "i", [7, 8]⟩, ⟨⟨3, 0⟩, "n", [9]⟩] none).1 = 3 := by
  exact ⟨rfl, rfl⟩

/-- C3 amended: with the span set, `Oplog.WriteTo` writes the raw bytes
of **every** entry before the first one observed past `end` — noops
included, because the skip comparison checks the quoted
`RawValue.String()` rendering against `"n"` and is dead code — in
cursor order; the terminating entry is never written, noop or not, and
the returned count equals the number of bytes written. -/
theorem WriteTo_window_bytes (ot : Oplog) (entries : List OplogEntry) (curErr : Option GoErr)
    (hs : ot.start.T ≠ 0) (he : ot.end_.T ≠ 0) :
    (Oplog.WriteTo ot entries curErr).2.2 = specOplogBytes ot.end_ entries ∧
    (Oplog.WriteTo ot entries curErr).1 =
      Int.ofNat (specOplogBytes ot.end_ entries).length := by
  unfold Oplog.WriteTo
  rw [if_neg (by simp [hs, he])]
  constructor
  · simpa using writeLoop_out ot.end_ curErr entries 0 []
  · simpa using writeLoop_written ot.end_ curErr entries 0 []

/-- Witness for the amended C3: a concrete batch holding an in-window
write, an in-window noop (written too), and a noop terminator past
`end` (stops the slice unwritten; the entry after it is also ignored). -/
theorem WriteTo_window_bytes_witness :
    (Oplog.WriteTo ⟨⟨1, 0⟩, ⟨5, 0⟩⟩
        [⟨⟨2, 1⟩, "i", [7, 8]⟩, ⟨⟨3, 0⟩, "n", [9]⟩, ⟨⟨6, 0⟩, "n", [1]⟩, ⟨⟨2, 0⟩, "u", [4]⟩]
        none).2.2 = [7, 8, 9] ∧
    (Oplog.WriteTo ⟨⟨1, 0⟩, ⟨5, 0⟩⟩
        [⟨⟨2, 1⟩, "i", [7, 8]⟩, ⟨⟨3, 0⟩, "n", [9]⟩, ⟨⟨6, 0⟩, "n", [1]⟩, ⟨⟨2, 0⟩, "u", [4]⟩]
        none).1 = 3 := by
  have h := WriteTo_window_bytes ⟨⟨1, 0⟩, ⟨5, 0⟩⟩
    [⟨⟨2, 1⟩, "i", [7, 8]⟩, ⟨⟨3, 0⟩, "n", [9]⟩, ⟨⟨6, 0⟩, "n", [1]⟩, ⟨⟨2, 0⟩, "u", [4]⟩]
    none (by decide) (by decide)
  exact ⟨h.1.trans (by decide), h.2.trans (by decide)⟩

/-- Counterexample to C2 as stated: the span is set, the cursor is
exhausted (with a nil `cur.Err()`) before any entry with `ts > end` is
observed, yet `WriteTo` returns a nil error — no "oplog window not
covered" error is reported. -/
theorem WriteTo_no_coverage_error :
    (Oplog.WriteTo ⟨⟨1, 0⟩, ⟨5, 0⟩⟩ [⟨⟨2, 1⟩, "i", [7, 8]⟩] none).2.1 = none := by
  decide

/-- C2 amended: when the tailing cursor is exhausted before any entry
with `ts > end` is observed, `WriteTo` returns the cursor's terminal
error `cur.Err()` unchanged — in particular a nil error when the cursor
ended cleanly; it does not report the uncovered oplog window. -/
theorem WriteTo_exhausted_returns_cursor_error (ot : Oplog) (entries : List OplogEntry)
    (curErr : Option GoErr) (hs : ot.start.T ≠ 0) (he : ot.end_.T ≠ 0)
    (hall : ∀ e ∈ entries, CompareTimestamp ot.end_ e.ts ≠ -1) :
    (Oplog.WriteTo ot entries curErr).2.1 = curErr := by
  unfold Oplog.WriteTo
  rw [if_neg (by simp [hs, he])]
  exact writeLoop_err_exhausted ot.end_ curErr entries 0 [] hall

/-- Witness for the amended C2: a cursor that dies with an error after
yielding only in-window entries propagates exactly that error. -/
theorem WriteTo_exhausted_returns_cursor_error_witness :
    (Oplog.WriteTo ⟨⟨1, 0⟩, ⟨5, 0⟩⟩ [⟨⟨2, 1⟩, "i", [7, 8]⟩]
      (some (errE "cursor died"))).2.1 = some (errE "cursor died") :=
  WriteTo_exhausted_returns_cursor_error ⟨⟨1, 0⟩, ⟨5, 0⟩⟩ [⟨⟨2, 1⟩, "i", [7, 8]⟩]
    (some (errE "cursor died")) (by decide) (by decide) (by decide)

/-! ## Claims about `converged` and `waitForStatus` -/

/-- Counterexample to C1 as stated: target status Running (≠ Done), the
sole shard's entry still Starting (pending), the shard's lock record
missing from the lock collection (`mongo.ErrNoDocuments`), the cluster
time far ahead — yet `converged` returns `(false, nil)`: it keeps
waiting instead of declaring the shard lost. -/
theorem converged_missing_lock_tolerated :
    converged
      ⟨.ok ⟨Status.running, "", ⟨100, 0⟩, [⟨"rs0", Status.starting, ""⟩]⟩,
        .ok ⟨1000, 0⟩, fun _ => LockRes.noDocs, none⟩
      [⟨"rs0", "rs0/h1"⟩] Status.running = (false, none) := by
  rfl

/-- C1 amended: during reconciliation toward `st ≠ Done`, for a pending
shard, a lock record that exists with `heartbeat.T + StaleFrameSec <
cluster time` makes `converged` declare the shard lost and return the
error; a missing lock record is tolerated — the shard merely stays
pending and `converged` reports `(false, nil)`. -/
theorem converged_stale_lock_lost (rsname hosts perr merr : String) (pst st ms : Status)
    (hb ct mhb : Timestamp) (cse : Option GoErr)
    (hst : st ≠ Status.done) (hpend : pst ≠ st) (hperr : pst ≠ Status.error)
    (hstale : hb.T + StaleFrameSec < ct.T) :
    converged ⟨.ok ⟨ms, merr, mhb, [⟨rsname, pst, perr⟩]⟩, .ok ct,
        fun _ => LockRes.ok hb, cse⟩ [⟨rsname, hosts⟩] st =
      (false, some (errE ("lost shard " ++ rsname ++ ", last beat ts: " ++ toString hb.T))) ∧
    converged ⟨.ok ⟨ms, merr, mhb, [⟨rsname, pst, perr⟩]⟩, .ok ct,
        fun _ => LockRes.noDocs, cse⟩ [⟨rsname, hosts⟩] st =
      (false, none) := by
  constructor
  · simp [converged, convergedStep, hst, hstale, hpend, hperr]
  · simp [converged, convergedStep, hst, hpend, hperr]

/-- Witness for the amended C1: one concrete pending shard, once with a
stale lock (lost-shard error) and once with a missing lock (tolerated). -/
theorem converged_stale_lock_lost_witness :
    converged ⟨.ok ⟨Status.running, "", ⟨50, 0⟩, [⟨"rs0", Status.starting, ""⟩]⟩,
        .ok ⟨100, 0⟩, fun _ => LockRes.ok ⟨10, 0⟩, none⟩ [⟨"rs0", "rs0/h"⟩] Status.running =
      (false, some (errE ("lost shard " ++ "rs0" ++ ", last beat ts: " ++
        toString (10 : Nat)))) ∧
    converged ⟨.ok ⟨Status.running, "", ⟨50, 0⟩, [⟨"rs0", Status.starting, ""⟩]⟩,
        .ok ⟨100, 0⟩, fun _ => LockRes.noDocs, none⟩ [⟨"rs0", "rs0/h"⟩] Status.running =
      (false, none) :=
  converged_stale_lock_lost "rs0" "rs0/h" "" "" Status.starting Status.running Status.running
    ⟨10, 0⟩ ⟨100, 0⟩ ⟨50, 0⟩ none (by decide) (by decide) (by decide) (by decide)

/-- C9: on a poll iteration of `waitForStatus`, heartbeat staleness is
checked before the status switch: a stale restore-meta heartbeat
(`hb.T + StaleFrameSec < cluster time`) yields the "restore stuck"
error regardless of the meta's status — even when the status already
equals the awaited one. -/
theorem waitForStatus_stale_beats_status (meta : RestoreMeta) (ct : Timestamp) (status : Status)
    (hstale : meta.hb.T + StaleFrameSec < ct.T) :
    waitForStatusStep ⟨.ok meta, .ok ct⟩ status =
      some (some (errE ("restore stuck, last beat ts: " ++ toString meta.hb.T))) := by
  simp [waitForStatusStep, hstale]

/-- Witness for C9: the meta has already reached the awaited status
(Done) on the same iteration, yet the stale heartbeat wins. -/
theorem waitForStatus_stale_beats_status_witness :
    waitForStatusStep ⟨.ok ⟨Status.done, "", ⟨10, 0⟩, []⟩, .ok ⟨100, 0⟩⟩ Status.done =
      some (some (errE ("restore stuck, last beat ts: " ++ toString (10 : Nat)))) :=
  waitForStatus_stale_beats_status ⟨Status.done, "", ⟨10, 0⟩, []⟩ ⟨100, 0⟩ Status.done
    (by decide)

/-- C7 (bug evidence): a restore meta in `StatusError` with a fresh
heartbeat and a non-empty error message makes the `waitForStatus` poll
return `errors.Wrap` of the nil error left over from the cluster-time
read — i.e. a nil error: the loop exits reporting success and the
shard's error message is dropped. -/
theorem waitForStatus_error_returns_nil :
    waitForStatusStep ⟨.ok ⟨Status.error, "shard rs1 failed", ⟨100, 0⟩, []⟩, .ok ⟨100, 0⟩⟩
      Status.done = some none := by
  rfl

/-! ## Claims about `swapUsers` -/

/-- Counterexample to C6 as stated: the temporary roles collection holds
a document whose `_id` is in the current user's role set; the splice
does not copy it back into `admin.system.roles` (the tmp-roles cursor
is itself filtered by `_id $nin eroles`). -/
theorem swapUsers_role_in_roleset_not_copied :
    (⟨"admin.x", "p"⟩ : Doc) ∈
      (⟨[], [], [⟨"admin.x", "p"⟩], []⟩ : UsersState).tmpRoles ∧
    (⟨"admin.x", "p"⟩ : Doc) ∉
      (swapUsers ⟨[], [], [⟨"admin.x", "p"⟩], []⟩ ⟨[], [⟨"admin", "x"⟩]⟩).adminRoles := by
  decide

/-- C6 amended: after the splice, `admin.system.roles` holds exactly the
pre-existing documents whose `_id` is in the current user's role set
plus the temporary-collection documents whose `_id` is **not** in that
set (so tmp documents shadowed by a kept role are not copied);
symmetrically `admin.system.users` holds the document matching the
current user's `_id` plus every temporary user document with a
different `_id`; both temporary collections are dropped. -/
theorem swapUsers_splice_spec (st : UsersState) (ex : AuthInfo) :
    (∀ d : Doc, d ∈ (swapUsers st ex).adminRoles ↔
      (d ∈ st.adminRoles ∧ d.id ∈ eroles ex) ∨ (d ∈ st.tmpRoles ∧ d.id ∉ eroles ex)) ∧
    (∀ d : Doc, d ∈ (swapUsers st ex).adminUsers ↔
      (d ∈ st.adminUsers ∧ d.id = preservedUser ex) ∨
        (d ∈ st.tmpUsers ∧ d.id ≠ preservedUser ex)) ∧
    (swapUsers st ex).tmpRoles = [] ∧ (swapUsers st ex).tmpUsers = [] := by
  refine ⟨fun d => ?_, fun d => ?_, rfl, rfl⟩ <;>
    simp [swapUsers, List.mem_filter]

/-- C10: when the session's auth info reports no users, the preserved
`_id` is the empty string; provided no real user document carries an
empty `_id`, the splice deletes every document of `admin.system.users`
and copies every temporary user document back — the executing session's
credential is not preserved. -/
theorem swapUsers_no_user_preserved (st : UsersState) (ex : AuthInfo)
    (hu : ex.Users = [])
    (ha : ∀ d ∈ st.adminUsers, d.id ≠ "")
    (ht : ∀ d ∈ st.tmpUsers, d.id ≠ "") :
    (swapUsers st ex).adminUsers = st.tmpUsers := by
  have hpu : preservedUser ex = "" := by simp [preservedUser, hu]
  have h1 : (st.adminUsers.filter fun d => decide (d.id = preservedUser ex)) = [] := by
    rw [List.filter_eq_nil_iff]
    intro d hd
    simpa [hpu] using ha d hd
  have h2 : (st.tmpUsers.filter fun d => decide (d.id ≠ preservedUser ex)) = st.tmpUsers := by
    rw [List.filter_eq_self]
    intro d hd
    simpa [hpu] using ht d hd
  simp only [swapUsers]
  rw [h1, h2]
  rfl

/-- Witness for C10: an admin user document and a distinct temporary
user document; after the splice with an empty auth-info user list the
users collection is exactly the temporary one. -/
theorem swapUsers_no_user_preserved_witness :
    (swapUsers ⟨[], [⟨"admin.bob", "c"⟩], [], [⟨"admin.alice", "c2"⟩]⟩
        ⟨[], []⟩).adminUsers = [(⟨"admin.alice", "c2"⟩ : Doc)] :=
  swapUsers_no_user_preserved ⟨[], [⟨"admin.bob", "c"⟩], [], [⟨"admin.alice", "c2"⟩]⟩
    ⟨[], []⟩ rfl (by decide) (by decide)

/-! ## Claims about `Restore.Run` -/

/-- Every cluster side effect `Restore.Run` can emit; in particular the
only convergence rounds are Running with the `WaitActionStart` timeout
and DumpDone/Done with no timeout. -/
def allowedEffects : List Effect :=
  [Effect.setRestoreMeta, Effect.startHeartbeat, Effect.addRSMeta,
    Effect.reconcile Status.running (some WaitActionStart), Effect.mongorestore,
    Effect.changeRSState Status.dumpDone, Effect.reconcile Status.dumpDone none,
    Effect.oplogApply, Effect.swapUsers, Effect.changeRSState Status.done,
    Effect.reconcile Status.done none, Effect.markFailed]

set_option maxHeartbeats 2000000 in
theorem runAfterDefer_effects_allowed (env : RunEnv) (im : IsMaster) (rsb : BackupReplset)
    (tr0 : List Effect) (h0 : ∀ x ∈ tr0, x ∈ allowedEffects) :
    ∀ x ∈ (runAfterDefer env im rsb tr0).effects, x ∈ allowedEffects := by
  unfold runAfterDefer failMF
  cases him : im.isLeader <;>
    simp only [him, Bool.false_eq_true, if_true, if_false, ite_true, ite_false] <;>
    (repeat' split) <;>
    intro x hx <;>
    (try simp_all [allowedEffects, List.mem_append]) <;>
    (try aesop)

theorem leaderStart_effects_allowed (env : RunEnv) (im : IsMaster) :
    ∀ x ∈ (leaderStart env im).2, x ∈ allowedEffects := by
  unfold leaderStart
  (repeat' split) <;> intro x hx <;> (try simp_all [allowedEffects]) <;> (try tauto)

theorem Run_effects_allowed (env : RunEnv) :
    ∀ x ∈ (Run env).effects, x ∈ allowedEffects := by
  unfold Run
  cases hg : env.getStorage with
  | some e => simp_all
  | none =>
  cases hr : resolveBackupMeta env with
  | error e => simp_all
  | ok bcp =>
  by_cases hst : bcp.Status = Status.done
  · dsimp only
    rw [if_neg (by simp [hst])]
    cases him : env.getIsMaster with
    | error e => simp_all
    | ok im =>
      cases hlast : findRS bcp im with
      | none => simp_all
      | some rsBackup =>
        dsimp only
        simp only [hlast]
        rcases hls : leaderStart env im with ⟨r, tr⟩
        have htr := leaderStart_effects_allowed env im
        rw [hls] at htr
        cases r with
        | some e => exact htr
        | none =>
          cases hw : env.waitStarting with
          | some e => simp only [hw]; exact htr
          | none => simp only [hw]; exact runAfterDefer_effects_allowed env im rsBackup tr htr
  · dsimp only
    rw [if_pos hst]
    simp

/-- A fully successful leader environment over a Done backup: every
external call of `Restore.Run` succeeds. -/
def sampleEnvDone : RunEnv where
  getStorage := none
  getBackupMeta := MetaRes.found ⟨Status.done, "", [⟨"rs0", "bcp_rs0.dump.s2", "bcp_rs0.oplog.s2"⟩]⟩
  metaFromStore := .ok ⟨Status.done, "", []⟩
  getIsMaster := .ok ⟨"rs0", true⟩
  setRestoreMeta := none
  waitStarting := none
  addRSMeta := none
  reconcileRunning := none
  waitRunning := none
  dumpReader := none
  dumpDecompress := none
  mongoVersion := .ok "4.2.0"
  newSession := none
  mongorestoreRes := none
  changeRSDumpDone := none
  reconcileDumpDone := none
  waitDumpDone := none
  oplogReader := none
  oplogDecompress := none
  oplogApplyRes := none
  currentUser := .ok ⟨[], []⟩
  restoreUsersRes := none
  changeRSDone := none
  reconcileDone := none

/-- As `sampleEnvDone` but the resolved backup meta is in Error. -/
def sampleEnvError : RunEnv :=
  { sampleEnvDone with getBackupMeta := MetaRes.found ⟨Status.error, "dump failed", []⟩ }

/-- C4: in `Restore.Run` the only convergence round carrying a timeout
is the one toward Running, and it carries `WaitActionStart`; the rounds
toward DumpDone and Done carry no timeout. `convergeClusterWithTimeout`
returns `errConvergeTimeOut` when its timeout ticker fires, while the
no-timeout `convergeCluster` loop can only surface that error if a
`converged` poll itself delivered it — it has no wall-clock budget of
its own and keeps polling until progress, a poll error, or context
cancellation. -/
theorem run_waitActionStart_only_running_hop :
    (∀ (env : RunEnv) (s : Status) (t : Option Nat),
        Effect.reconcile s t ∈ (Run env).effects →
          (s = Status.running ∧ t = some WaitActionStart) ∨
          ((s = Status.dumpDone ∨ s = Status.done) ∧ t = none)) ∧
    (∀ evs : List Tick, convergeClusterWithTimeout (Tick.timeoutFire :: evs) =
        some (some errConvergeTimeOut)) ∧
    (∀ evs : List Tick, convergeCluster evs = some (some errConvergeTimeOut) →
        ∃ b : Bool, Tick.poll (b, some errConvergeTimeOut) ∈ evs) := by
  refine ⟨?_, fun evs => rfl, ?_⟩
  · intro env s t hmem
    have h := Run_effects_allowed env _ hmem
    simp only [allowedEffects, List.mem_cons, List.not_mem_nil, or_false] at h
    rcases h with h | h | h | h | h | h | h | h | h | h | h | h <;> simp_all
  · intro evs
    induction evs with
    | nil => intro h; simp [convergeCluster] at h
    | cons tk rest ih =>
      intro h
      match tk with
      | .poll (b, e) =>
        cases e with
        | some e0 =>
          simp only [convergeCluster, Option.some.injEq] at h
          exact ⟨b, by simp [h]⟩
        | none =>
          by_cases hb : b
          · simp [convergeCluster, hb] at h
          · simp only [convergeCluster, hb, if_false, ite_false, Bool.false_eq_true] at h
            obtain ⟨b2, hm⟩ := ih h
            exact ⟨b2, by simp [hm]⟩
      | .timeoutFire =>
        simp only [convergeCluster] at h
        obtain ⟨b2, hm⟩ := ih h
        exact ⟨b2, by simp [hm]⟩
      | .ctxDone => simp [convergeCluster] at h

/-- Witness for C4: the successful leader run emits the Running round
with `WaitActionStart`; one fired timeout event yields the converge
timeout; a poll that itself delivers the converge-timeout error is the
only way `convergeCluster` surfaces it. -/
theorem run_waitActionStart_only_running_hop_witness :
    ((Status.running = Status.running ∧ some WaitActionStart = some WaitActionStart) ∨
      ((Status.running = Status.dumpDone ∨ Status.running = Status.done) ∧
        (some WaitActionStart : Option Nat) = none)) ∧
    convergeClusterWithTimeout [Tick.timeoutFire] = some (some errConvergeTimeOut) ∧
    (∃ b : Bool, Tick.poll (b, some errConvergeTimeOut) ∈
      [Tick.poll (false, some errConvergeTimeOut)]) :=
  ⟨run_waitActionStart_only_running_hop.1 sampleEnvDone Status.running (some WaitActionStart)
      (by decide),
    run_waitActionStart_only_running_hop.2.1 [],
    run_waitActionStart_only_running_hop.2.2 [Tick.poll (false, some errConvergeTimeOut)] rfl⟩

/-- C5: when the resolved backup metadata's status is not Done,
`Restore.Run` returns a non-nil error and its cluster side-effect trace
is empty — no restore meta write, no heartbeat, no state transition,
nothing touched on the target database. -/
theorem run_refuses_not_done_backup (env : RunEnv) (bcp : BackupMeta)
    (hres : resolveBackupMeta env = Except.ok bcp) (hst : bcp.Status ≠ Status.done) :
    (Run env).err ≠ none ∧ (Run env).effects = [] := by
  unfold Run
  cases hg : env.getStorage with
  | some e => dsimp only; simp
  | none =>
    dsimp only
    rw [hres]
    dsimp only
    rw [if_pos hst]
    simp

/-- Witness for C5: the environment whose backup meta reports Error. -/
theorem run_refuses_not_done_backup_witness :
    (Run sampleEnvError).err ≠ none ∧ (Run sampleEnvError).effects = [] :=
  run_refuses_not_done_backup sampleEnvError ⟨Status.error, "dump failed", []⟩ rfl (by decide)

end PBM
